import Mathlib

/-!
# Mulberry Web-Music IDE — verification development

Shallow embedding of the audio behaviour of `mulberry_audio.py`.  The
repository is a Streamlit page whose audio engine is the JavaScript embedded
in `audio_component_html`: the functions `playTone`, `playCMajorScale`,
`playNoteInScale`, `showStatus`, `updateStatus`, `hideStatus`, together with
the sidebar sliders that bound the parameters reaching the script.

Times, frequencies and gains are modelled as rationals.  The Web Audio gain
automation used by the script — one `setValueAtTime(0, now)` followed by a
chain of `linearRampToValueAtTime(v, T)` calls — is embedded as a list of
`(time, value)` breakpoints evaluated by linear interpolation (`rampEval`):
before the initial event the gain holds the initial value, between successive
events it ramps linearly, and after the last event it holds the last value.
-/

set_option maxHeartbeats 1000000
set_option linter.unusedVariables false

namespace Mulberry

/-- A session configuration: the values read from the Streamlit sidebar and
interpolated into the JavaScript template (`frequency`, `waveform`, `attack`,
`decay`, `sustain`, `release`). -/
structure SessionConfig where
  frequency : ℚ
  waveform : String
  attack : ℚ
  decay : ℚ
  sustain : ℚ
  release : ℚ
  deriving DecidableEq, Repr

/-- One scheduled oscillator+gain pair, as built by `playTone` or
`playNoteInScale`:  `startOffset` is the delay from the play request to
`oscillator.start` (the `setTimeout` delay for scale notes, `0` for a single
tone), `gainRamps` are the `linearRampToValueAtTime` breakpoints relative to
the note's own `now` (the gain is set to `0` at time `0` by
`setValueAtTime(0, now)`), and `stopTime` is the argument of
`oscillator.stop` relative to the note's `now`. -/
structure ScheduledNote where
  startOffset : ℚ
  frequency : ℚ
  waveform : String
  gainRamps : List (ℚ × ℚ)
  stopTime : ℚ
  deriving DecidableEq, Repr, Inhabited

/-- Linear interpolation between the points `(t0, v0)` and `(t1, v1)`,
evaluated at `t`. -/
def lerp (t0 v0 t1 v1 t : ℚ) : ℚ :=
  v0 + (v1 - v0) * (t - t0) / (t1 - t0)

/-- Evaluate a Web Audio gain automation: initial event `(t0, v0)` (from
`setValueAtTime`) followed by the `linearRampToValueAtTime` breakpoints
`ramps`.  Holds `v0` up to `t0`, interpolates linearly between consecutive
breakpoints, and holds the final value afterwards. -/
def rampEval (t0 v0 : ℚ) : List (ℚ × ℚ) → ℚ → ℚ
  | [], _ => v0
  | (t1, v1) :: rest, t =>
      if t ≤ t1 then
        (if t ≤ t0 then v0 else lerp t0 v0 t1 v1 t)
      else rampEval t1 v1 rest t

/-- The gain breakpoints installed by `playTone`
(`src/mulberry_audio.py` lines 283–296), relative to `now`:
ramp to `1.0` at `attack`, to `sustain` at `attack+decay`, to `sustain`
again at `noteDuration = attack + decay + 0.5`, and to `0` at
`noteDuration + release`. -/
def toneRamps (a d s r : ℚ) : List (ℚ × ℚ) :=
  [(a, 1), (a + d, s), (a + d + 0.5, s), (a + d + 0.5 + r, 0)]

/-- The gain of the single tone as a function of time since `now`:
`setValueAtTime(0, now)` then the `toneRamps` chain. -/
def toneGain (a d s r : ℚ) : ℚ → ℚ :=
  rampEval 0 0 (toneRamps a d s r)

/-- `noteDuration` of `playTone`: `attack + decay + 0.5` (hold for 0.5 s at
the sustain level). -/
def noteDuration (a d : ℚ) : ℚ := a + d + 0.5

/-- `playTone` (lines 257–311): one oscillator is created with the
configured waveform and frequency, started at `now`, given the `toneRamps`
gain automation, and stopped at `noteDuration + release`. -/
def playTone (cfg : SessionConfig) : List ScheduledNote :=
  [{ startOffset := 0
     frequency := cfg.frequency
     waveform := cfg.waveform
     gainRamps := toneRamps cfg.attack cfg.decay cfg.sustain cfg.release
     stopTime := noteDuration cfg.attack cfg.decay + cfg.release }]

/-- The C-major scale frequency table of `playCMajorScale` (lines 324–333). -/
def cMajorScale : List ℚ :=
  [261.63, 293.66, 329.63, 349.23, 392.00, 440.00, 493.88, 523.25]

/-- `noteDuration` of `playCMajorScale` (line 336): 0.3 s per note. -/
def scaleNoteDuration : ℚ := 0.3

/-- `totalDuration` of `playCMajorScale` (line 350):
`cMajorScale.length * noteDuration`. -/
def scaleTotalDuration : ℚ := (cMajorScale.length : ℚ) * scaleNoteDuration

/-- The gain breakpoints installed by `playNoteInScale` (lines 374–380),
relative to the note's `now`:  `quickAttack = 0.01`, `quickRelease = 0.05`;
ramp to `0.5` at `quickAttack`, to `0.5` at `duration - quickRelease`, and
to `0` at `duration`. -/
def scaleNoteRamps (duration : ℚ) : List (ℚ × ℚ) :=
  [(0.01, 0.5), (duration - 0.05, 0.5), (duration, 0)]

/-- The gain of one scale note as a function of time since its `now`. -/
def scaleNoteGain (duration : ℚ) : ℚ → ℚ :=
  rampEval 0 0 (scaleNoteRamps duration)

/-- `playNoteInScale` (lines 360–387): an oscillator with the session's
waveform and the given frequency, the quick fixed envelope, stopped at
`now + duration`. -/
def playNoteInScale (wf : String) (freq duration : ℚ) : ScheduledNote :=
  { startOffset := 0
    frequency := freq
    waveform := wf
    gainRamps := scaleNoteRamps duration
    stopTime := duration }

/-- `playCMajorScale` (lines 318–354): each frequency of `cMajorScale` is
scheduled by `setTimeout` with delay `index * noteDuration`, and played by
`playNoteInScale freq noteDuration`.  Only the session's `waveform` is read;
the sidebar frequency and ADSR values are not used. -/
def playCMajorScale (cfg : SessionConfig) : List ScheduledNote :=
  cMajorScale.enum.map fun p =>
    { playNoteInScale cfg.waveform p.2 scaleNoteDuration with
      startOffset := (p.1 : ℚ) * scaleNoteDuration }

/-! ## Status display (`showStatus`, `updateStatus`, `hideStatus`) -/

/-- The `#status` element's state: its text content and whether it carries
the `active` class (which controls visibility: `display: none` without it,
`display: block` with it). -/
structure StatusEl where
  text : String
  active : Bool
  deriving DecidableEq, Repr

/-- `showStatus` (lines 392–396): sets the text content and adds the
`active` class. -/
def showStatus (message : String) (_s : StatusEl) : StatusEl :=
  { text := message, active := true }

/-- `updateStatus` (lines 398–403): sets the text content only when the
element currently has the `active` class; otherwise does nothing. -/
def updateStatus (message : String) (s : StatusEl) : StatusEl :=
  if s.active then { s with text := message } else s

/-- `hideStatus` (lines 405–408): removes the `active` class. -/
def hideStatus (s : StatusEl) : StatusEl :=
  { s with active := false }

/-! ## The sidebar boundary (`st.sidebar.slider`, `st.sidebar.selectbox`) -/

/-- The Streamlit slider widget contract, for a slider declared with bounds
`[minV, maxV]`: a requested value inside the bounds is returned unchanged; a
value outside them is rejected (Streamlit raises `StreamlitAPIException`
for an out-of-range `value`, and the rendered slider itself can only emit
values between its bounds), modelled as `none`. -/
def sliderValue (minV maxV req : ℚ) : Option ℚ :=
  if minV ≤ req ∧ req ≤ maxV then some req else none

/-- The Streamlit selectbox widget contract: only one of the declared
options can be selected. -/
def selectValue (options : List String) (req : String) : Option String :=
  if req ∈ options then some req else none

/-- The waveform options of the sidebar selectbox (lines 46–51). -/
def waveformOptions : List String :=
  ["sine", "square", "sawtooth", "triangle"]

/-- The sidebar boundary (lines 36–91): frequency slider on `[200, 800]`,
waveform selectbox, attack and decay sliders on `[0.01, 2.0]`, sustain
slider on `[0, 1]`, release slider on `[0.01, 3.0]`.  The resulting values
are the ones interpolated into the JavaScript template; a rejected widget
value means no configuration (and hence no script run) at all. -/
def configureSession (reqFreq : ℚ) (reqWf : String)
    (reqA reqD reqS reqR : ℚ) : Option SessionConfig := do
  let f ← sliderValue 200 800 reqFreq
  let wf ← selectValue waveformOptions reqWf
  let a ← sliderValue 0.01 2.0 reqA
  let d ← sliderValue 0.01 2.0 reqD
  let s ← sliderValue 0 1 reqS
  let r ← sliderValue 0.01 3.0 reqR
  pure { frequency := f, waveform := wf, attack := a, decay := d,
         sustain := s, release := r }

/-- The sidebar defaults (lines 36–91): frequency 440 Hz, waveform `sine`
(selectbox index 0), attack 0.1 s, decay 0.2 s, sustain 0.5,
release 0.3 s. -/
def sidebarDefaults : SessionConfig :=
  { frequency := 440
    waveform := "sine"
    attack := 0.1
    decay := 0.2
    sustain := 0.5
    release := 0.3 }

/-- A play-tone request as seen from the UI: the sidebar either yields a
configuration, in which case `playTone` runs on it, or rejects a widget
value, in which case no script (and no sound) is produced. -/
def playToneRequest (reqFreq : ℚ) (reqWf : String)
    (reqA reqD reqS reqR : ℚ) : List ScheduledNote :=
  match configureSession reqFreq reqWf reqA reqD reqS reqR with
  | some cfg => playTone cfg
  | none => []

/-! ## Helper lemmas about `lerp` and `rampEval` -/

theorem lerp_same (t0 v t1 t : ℚ) : lerp t0 v t1 v t = v := by
  simp [lerp]

theorem lerp_left (t0 v0 t1 v1 : ℚ) : lerp t0 v0 t1 v1 t0 = v0 := by
  simp [lerp]

theorem lerp_right (t0 v0 t1 v1 : ℚ) (h : t1 - t0 ≠ 0) :
    lerp t0 v0 t1 v1 t1 = v1 := by
  rw [lerp, mul_div_assoc, div_self h]; ring

theorem lerp_mem (lo hi t0 v0 t1 v1 t : ℚ) (ht0 : t0 ≤ t) (ht1 : t ≤ t1)
    (htt : t0 < t1) (h0l : lo ≤ v0) (h0h : v0 ≤ hi) (h1l : lo ≤ v1)
    (h1h : v1 ≤ hi) :
    lo ≤ lerp t0 v0 t1 v1 t ∧ lerp t0 v0 t1 v1 t ≤ hi := by
  have hd : 0 < t1 - t0 := by linarith
  have hθ0 : 0 ≤ (t - t0) / (t1 - t0) := div_nonneg (by linarith) hd.le
  have hθ1 : (t - t0) / (t1 - t0) ≤ 1 := by
    rw [div_le_one hd]; linarith
  have he : lerp t0 v0 t1 v1 t = v0 + (v1 - v0) * ((t - t0) / (t1 - t0)) := by
    rw [lerp, mul_div_assoc]
  rw [he]
  constructor
  · nlinarith [mul_nonneg (sub_nonneg.mpr h1l) hθ0,
      mul_nonneg (sub_nonneg.mpr h0l) (sub_nonneg.mpr hθ1)]
  · nlinarith [mul_nonneg (sub_nonneg.mpr h1h) hθ0,
      mul_nonneg (sub_nonneg.mpr h0h) (sub_nonneg.mpr hθ1)]

/-- Well-formedness of a breakpoint chain starting from the event `p`:
times strictly increase and every value lies in `[lo, hi]`. -/
def rampsWF (lo hi : ℚ) : ℚ × ℚ → List (ℚ × ℚ) → Prop
  | p, [] => lo ≤ p.2 ∧ p.2 ≤ hi
  | p, q :: rest => lo ≤ p.2 ∧ p.2 ≤ hi ∧ p.1 < q.1 ∧ rampsWF lo hi q rest

theorem rampsWF_head (lo hi : ℚ) (p : ℚ × ℚ) (ramps : List (ℚ × ℚ))
    (h : rampsWF lo hi p ramps) : lo ≤ p.2 ∧ p.2 ≤ hi := by
  cases ramps with
  | nil => exact h
  | cons q rest => exact ⟨h.1, h.2.1⟩

theorem rampEval_mem (lo hi : ℚ) (ramps : List (ℚ × ℚ)) :
    ∀ t0 v0 : ℚ, rampsWF lo hi (t0, v0) ramps →
      ∀ t, lo ≤ rampEval t0 v0 ramps t ∧ rampEval t0 v0 ramps t ≤ hi := by
  induction ramps with
  | nil =>
    intro t0 v0 h t
    simpa [rampEval] using h
  | cons q rest ih =>
    intro t0 v0 h t
    obtain ⟨t1, v1⟩ := q
    obtain ⟨h0l, h0h, hlt, hrest⟩ := h
    have hv1 := rampsWF_head lo hi (t1, v1) rest hrest
    by_cases h1 : t ≤ t1
    · by_cases h2 : t ≤ t0
      · simpa [rampEval, h1, h2] using ⟨h0l, h0h⟩
      · simpa [rampEval, h1, h2] using
          lerp_mem lo hi t0 v0 t1 v1 t (by linarith) h1 hlt h0l h0h hv1.1 hv1.2
    · simpa [rampEval, h1] using ih t1 v1 hrest t

/-! ## Pointwise facts about the `playTone` gain schedule -/

theorem toneGain_zero (a d s r : ℚ) (ha : 0 < a) : toneGain a d s r 0 = 0 := by
  simp only [toneGain, toneRamps, rampEval]
  rw [if_pos ha.le, if_pos le_rfl]

theorem toneGain_attack_end (a d s r : ℚ) (ha : 0 < a) :
    toneGain a d s r a = 1 := by
  simp only [toneGain, toneRamps, rampEval]
  rw [if_pos le_rfl, if_neg (by linarith : ¬ a ≤ (0 : ℚ))]
  simpa using lerp_right 0 0 a 1 (by simpa using ha.ne.symm)

theorem toneGain_plateau (a d s r t : ℚ) (hd : 0 < d)
    (hge : a + d ≤ t) (hle : t ≤ a + d + 0.5) : toneGain a d s r t = s := by
  simp only [toneGain, toneRamps, rampEval]
  rw [if_neg (by linarith : ¬ t ≤ a)]
  by_cases h2 : t ≤ a + d
  · have ht : t = a + d := le_antisymm h2 hge
    rw [if_pos h2, if_neg (by linarith : ¬ t ≤ a), ht]
    exact lerp_right a 1 (a + d) s (by linarith)
  · rw [if_neg h2, if_pos (by linarith : t ≤ a + d + 0.5),
      if_neg (by linarith : ¬ t ≤ a + d)]
    exact lerp_same (a + d) s (a + d + 0.5) t

theorem toneGain_release_end (a d s r : ℚ) (hd : 0 < d)
    (hr : 0 < r) : toneGain a d s r (a + d + 0.5 + r) = 0 := by
  simp only [toneGain, toneRamps, rampEval]
  rw [if_neg (by linarith : ¬ a + d + 0.5 + r ≤ a),
    if_neg (by linarith : ¬ a + d + 0.5 + r ≤ a + d),
    if_neg (by linarith : ¬ a + d + 0.5 + r ≤ a + d + 0.5),
    if_pos le_rfl, if_neg (by linarith : ¬ a + d + 0.5 + r ≤ a + d + 0.5)]
  exact lerp_right (a + d + 0.5) s (a + d + 0.5 + r) 0 (by linarith)

theorem toneRamps_wf (a d s r : ℚ) (ha : 0 < a) (hd : 0 < d)
    (hs1 : 0 ≤ s) (hs2 : s ≤ 1) (hr : 0 < r) :
    rampsWF 0 1 (0, 0) (toneRamps a d s r) := by
  simp only [toneRamps, rampsWF]
  exact ⟨le_rfl, by norm_num, ha, by norm_num, le_rfl, by linarith, hs1, hs2,
    by linarith, hs1, hs2, by linarith, le_rfl, by norm_num⟩

theorem toneGain_mem (a d s r : ℚ) (ha : 0 < a) (hd : 0 < d)
    (hs1 : 0 ≤ s) (hs2 : s ≤ 1) (hr : 0 < r) (t : ℚ) :
    0 ≤ toneGain a d s r t ∧ toneGain a d s r t ≤ 1 :=
  rampEval_mem 0 1 (toneRamps a d s r) 0 0
    (toneRamps_wf a d s r ha hd hs1 hs2 hr) t

/-! ## Claim theorems -/

/-- C1: for every parameter set within the UI slider domains, `playTone`
produces a single note whose gain is exactly 0 at `t = 0`, exactly 1 at
`t = attack`, equal to `sustain` from `t = attack + decay` through
`t = attack + decay + 0.5`, and exactly 0 at
`t = attack + decay + 0.5 + release`, which is also the time at which the
oscillator is stopped; in particular for `attack = 0.1`, `decay = 0.2`,
`release = 0.3` the total audible duration is 1.1 s. -/
theorem playTone_envelope_correct (cfg : SessionConfig)
    (hf1 : 200 ≤ cfg.frequency) (hf2 : cfg.frequency ≤ 800)
    (ha1 : 0.01 ≤ cfg.attack) (ha2 : cfg.attack ≤ 2)
    (hd1 : 0.01 ≤ cfg.decay) (hd2 : cfg.decay ≤ 2)
    (hs1 : 0 ≤ cfg.sustain) (hs2 : cfg.sustain ≤ 1)
    (hr1 : 0.01 ≤ cfg.release) (hr2 : cfg.release ≤ 3) :
    (playTone cfg).length = 1 ∧
    (∀ n ∈ playTone cfg,
      n.gainRamps = toneRamps cfg.attack cfg.decay cfg.sustain cfg.release ∧
      n.stopTime = cfg.attack + cfg.decay + 0.5 + cfg.release) ∧
    toneGain cfg.attack cfg.decay cfg.sustain cfg.release 0 = 0 ∧
    toneGain cfg.attack cfg.decay cfg.sustain cfg.release cfg.attack = 1 ∧
    (∀ t, cfg.attack + cfg.decay ≤ t → t ≤ cfg.attack + cfg.decay + 0.5 →
      toneGain cfg.attack cfg.decay cfg.sustain cfg.release t = cfg.sustain) ∧
    toneGain cfg.attack cfg.decay cfg.sustain cfg.release
      (cfg.attack + cfg.decay + 0.5 + cfg.release) = 0 ∧
    (playTone sidebarDefaults).map ScheduledNote.stopTime = [1.1] := by
  have ha : (0 : ℚ) < cfg.attack := by linarith
  have hd : (0 : ℚ) < cfg.decay := by linarith
  have hr : (0 : ℚ) < cfg.release := by linarith
  refine ⟨rfl, ?_, toneGain_zero _ _ _ _ ha, toneGain_attack_end _ _ _ _ ha,
    fun t h1 h2 => toneGain_plateau _ _ _ _ _ hd h1 h2,
    toneGain_release_end _ _ _ _ hd hr, ?_⟩
  · intro n hn
    simp only [playTone, List.mem_singleton] at hn
    subst hn
    exact ⟨rfl, by simp [noteDuration]⟩
  · simp [playTone, noteDuration, sidebarDefaults]
    norm_num

/-- Witness for C1 at the slider defaults
(frequency 440, attack 0.1, decay 0.2, sustain 0.5, release 0.3). -/
theorem playTone_envelope_correct_witness :
    toneGain 0.1 0.2 0.5 0.3 0.1 = 1 ∧ toneGain 0.1 0.2 0.5 0.3 0.6 = 0.5 ∧
    toneGain 0.1 0.2 0.5 0.3 1.1 = 0 := by
  have h := playTone_envelope_correct sidebarDefaults
    (by norm_num [sidebarDefaults]) (by norm_num [sidebarDefaults])
    (by norm_num [sidebarDefaults]) (by norm_num [sidebarDefaults])
    (by norm_num [sidebarDefaults]) (by norm_num [sidebarDefaults])
    (by norm_num [sidebarDefaults]) (by norm_num [sidebarDefaults])
    (by norm_num [sidebarDefaults]) (by norm_num [sidebarDefaults])
  refine ⟨h.2.2.2.1, ?_, ?_⟩
  · have := h.2.2.2.2.1 0.6 (by norm_num [sidebarDefaults])
      (by norm_num [sidebarDefaults])
    simpa [sidebarDefaults] using this
  · have := h.2.2.2.2.2.1
    simp only [sidebarDefaults] at this
    norm_num at this ⊢
    exact this

/-- C9: for slider-domain parameters the `playTone` gain schedule is a
well-formed continuous piecewise-linear function: the gain stays in
`[0, 1]` at all times, the breakpoint times are strictly increasing
(`0 < attack < attack+decay < attack+decay+0.5 < attack+decay+0.5+release`),
and the gain at the end of the decay ramp and at the start of the release
ramp both equal `sustain` (the explicit hold ramp runs from `sustain` to
`sustain`), so the envelope has no instantaneous jump. -/
theorem playTone_gain_invariants (cfg : SessionConfig)
    (ha1 : 0.01 ≤ cfg.attack) (ha2 : cfg.attack ≤ 2)
    (hd1 : 0.01 ≤ cfg.decay) (hd2 : cfg.decay ≤ 2)
    (hs1 : 0 ≤ cfg.sustain) (hs2 : cfg.sustain ≤ 1)
    (hr1 : 0.01 ≤ cfg.release) (hr2 : cfg.release ≤ 3) :
    (∀ t, 0 ≤ toneGain cfg.attack cfg.decay cfg.sustain cfg.release t ∧
      toneGain cfg.attack cfg.decay cfg.sustain cfg.release t ≤ 1) ∧
    ((0 : ℚ) < cfg.attack ∧ cfg.attack < cfg.attack + cfg.decay ∧
      cfg.attack + cfg.decay < cfg.attack + cfg.decay + 0.5 ∧
      cfg.attack + cfg.decay + 0.5 <
        cfg.attack + cfg.decay + 0.5 + cfg.release) ∧
    ((toneRamps cfg.attack cfg.decay cfg.sustain cfg.release).map Prod.fst =
      [cfg.attack, cfg.attack + cfg.decay, cfg.attack + cfg.decay + 0.5,
        cfg.attack + cfg.decay + 0.5 + cfg.release]) ∧
    toneGain cfg.attack cfg.decay cfg.sustain cfg.release
      (cfg.attack + cfg.decay) = cfg.sustain ∧
    toneGain cfg.attack cfg.decay cfg.sustain cfg.release
      (cfg.attack + cfg.decay + 0.5) = cfg.sustain := by
  have ha : (0 : ℚ) < cfg.attack := by linarith
  have hd : (0 : ℚ) < cfg.decay := by linarith
  have hr : (0 : ℚ) < cfg.release := by linarith
  refine ⟨toneGain_mem _ _ _ _ ha hd hs1 hs2 hr,
    ⟨ha, by linarith, by linarith, by linarith⟩, by simp [toneRamps],
    toneGain_plateau _ _ _ _ _ hd le_rfl (by linarith),
    toneGain_plateau _ _ _ _ _ hd (by linarith) le_rfl⟩

/-- Witness for C9 at the slider defaults. -/
theorem playTone_gain_invariants_witness :
    (0 ≤ toneGain 0.1 0.2 0.5 0.3 0.7 ∧ toneGain 0.1 0.2 0.5 0.3 0.7 ≤ 1) ∧
    toneGain 0.1 0.2 0.5 0.3 0.3 = 0.5 := by
  have h := playTone_gain_invariants sidebarDefaults
    (by norm_num [sidebarDefaults]) (by norm_num [sidebarDefaults])
    (by norm_num [sidebarDefaults]) (by norm_num [sidebarDefaults])
    (by norm_num [sidebarDefaults]) (by norm_num [sidebarDefaults])
    (by norm_num [sidebarDefaults]) (by norm_num [sidebarDefaults])
  refine ⟨?_, ?_⟩
  · simpa [sidebarDefaults] using h.1 0.7
  · have := h.2.2.2.1
    simp only [sidebarDefaults] at this
    norm_num at this ⊢
    exact this

/-- The sustain hold of the note scheduled by `playTone`: the time between
the end of the decay ramp (the schedule's second breakpoint) and the start
of the release ramp (its third breakpoint). -/
def toneHoldSeconds (cfg : SessionConfig) : ℚ :=
  ((playTone cfg).headI.gainRamps.getD 2 (0, 0)).1 -
    ((playTone cfg).headI.gainRamps.getD 1 (0, 0)).1

/-- A second configuration sharing `sidebarDefaults`' waveform but nothing
else, used to exercise waveform-only dependence. -/
def altConfig : SessionConfig :=
  { frequency := 613
    waveform := "sine"
    attack := 1.7
    decay := 0.9
    sustain := 0.2
    release := 2.5 }

/-- C2 (counterexample): at the sidebar defaults (attack 0.1, decay 0.2)
the sustain hold of the single scheduled note is 0.5 s, not
`attack + decay + 0.5 = 0.8` s. -/
theorem toneHold_ne_attack_decay_half :
    toneHoldSeconds sidebarDefaults ≠
      sidebarDefaults.attack + sidebarDefaults.decay + 0.5 := by
  simp only [toneHoldSeconds, playTone, sidebarDefaults, toneRamps,
    List.headI, List.getD, List.get?, noteDuration]
  norm_num

/-- C2 (amended): a single-tone session creates exactly one note event, at
start offset 0, with the session's frequency and waveform and the
user-configured envelope breakpoints; its sustain hold is the fixed 0.5 s,
and the release ramp begins at `noteDuration = attack + decay + 0.5`
measured from the note's start. -/
theorem playTone_single_event (cfg : SessionConfig) :
    (playTone cfg).length = 1 ∧
    (playTone cfg).headI.startOffset = 0 ∧
    (playTone cfg).headI.frequency = cfg.frequency ∧
    (playTone cfg).headI.waveform = cfg.waveform ∧
    (playTone cfg).headI.gainRamps =
      toneRamps cfg.attack cfg.decay cfg.sustain cfg.release ∧
    toneHoldSeconds cfg = 0.5 ∧
    ((playTone cfg).headI.gainRamps.getD 2 (0, 0)).1 =
      noteDuration cfg.attack cfg.decay := by
  refine ⟨rfl, rfl, rfl, rfl, rfl, ?_, ?_⟩
  · simp only [toneHoldSeconds, playTone, toneRamps, List.headI,
      List.getD, List.get?, Option.getD_some]
    ring
  · simp only [playTone, toneRamps, List.headI, List.getD, List.get?,
      Option.getD_some, noteDuration]

/-- C3: `playCMajorScale` schedules exactly eight notes, with the
equal-temperament C-major frequencies C4…C5 in order; note `i` starts at
exactly `i * 0.3` seconds, and the total scale duration
(`cMajorScale.length * noteDuration`) is `8 × 0.3 = 2.4` s. -/
theorem playScale_schedule (cfg : SessionConfig) :
    (playCMajorScale cfg).length = 8 ∧
    (playCMajorScale cfg).map ScheduledNote.frequency =
      [261.63, 293.66, 329.63, 349.23, 392.00, 440.00, 493.88, 523.25] ∧
    (∀ i, i < 8 →
      ((playCMajorScale cfg).getD i default).startOffset = (i : ℚ) * 0.3) ∧
    scaleTotalDuration = 8 * 0.3 ∧ scaleTotalDuration = 2.4 := by
  refine ⟨rfl, ?_, ?_, ?_, ?_⟩
  · simp [playCMajorScale, cMajorScale, playNoteInScale, List.enum,
      List.enumFrom]
  · intro i hi
    interval_cases i <;>
      simp [playCMajorScale, cMajorScale, playNoteInScale, List.enum,
        List.enumFrom, scaleNoteDuration]
  · simp [scaleTotalDuration, cMajorScale, scaleNoteDuration]
  · simp [scaleTotalDuration, cMajorScale, scaleNoteDuration]
    norm_num

/-- Witness for C3 at the sidebar defaults, note index 7. -/
theorem playScale_schedule_witness :
    ((playCMajorScale sidebarDefaults).getD 7 default).startOffset =
      (7 : ℚ) * 0.3 :=
  (playScale_schedule sidebarDefaults).2.2.1 7 (by norm_num)

/-! ## Pointwise facts about the `playNoteInScale` gain schedule -/

theorem scaleNoteGain_zero : scaleNoteGain scaleNoteDuration 0 = 0 := by
  simp only [scaleNoteGain, scaleNoteRamps, scaleNoteDuration, rampEval]
  rw [if_pos (by norm_num : (0 : ℚ) ≤ 0.01), if_pos le_rfl]

theorem scaleNoteGain_ramp_up (t : ℚ) (h1 : 0 ≤ t) (h2 : t ≤ 0.01) :
    scaleNoteGain scaleNoteDuration t = lerp 0 0 0.01 0.5 t := by
  simp only [scaleNoteGain, scaleNoteRamps, scaleNoteDuration, rampEval]
  rw [if_pos h2]
  by_cases h0 : t ≤ 0
  · have ht : t = 0 := le_antisymm h0 h1
    rw [if_pos h0, ht, lerp_left]
  · rw [if_neg h0]

theorem scaleNoteGain_plateau (t : ℚ) (h1 : 0.01 ≤ t)
    (h2 : t ≤ scaleNoteDuration - 0.05) :
    scaleNoteGain scaleNoteDuration t = 0.5 := by
  simp only [scaleNoteDuration] at h2
  simp only [scaleNoteGain, scaleNoteRamps, scaleNoteDuration, rampEval]
  by_cases ha : t ≤ 0.01
  · have ht : t = 0.01 := le_antisymm ha h1
    rw [if_pos ha, if_neg (by norm_num [ht] : ¬ t ≤ (0 : ℚ)), ht]
    simpa using lerp_right 0 0 0.01 0.5 (by norm_num)
  · rw [if_neg ha, if_pos h2, if_neg ha]
    exact lerp_same 0.01 0.5 (0.3 - 0.05) t

theorem scaleNoteGain_ramp_down (t : ℚ)
    (h1 : scaleNoteDuration - 0.05 ≤ t) (h2 : t ≤ scaleNoteDuration) :
    scaleNoteGain scaleNoteDuration t =
      lerp (scaleNoteDuration - 0.05) 0.5 scaleNoteDuration 0 t := by
  simp only [scaleNoteDuration] at h1 h2 ⊢
  simp only [scaleNoteGain, scaleNoteRamps, rampEval]
  rw [if_neg (by norm_num at h1 ⊢; linarith : ¬ t ≤ (0.01 : ℚ))]
  by_cases hb : t ≤ 0.3 - 0.05
  · have ht : t = 0.3 - 0.05 := le_antisymm hb h1
    rw [if_pos hb, if_neg (by norm_num [ht] : ¬ t ≤ (0.01 : ℚ)), ht,
      lerp_same, lerp_left]
  · rw [if_neg hb, if_pos h2, if_neg hb]

theorem scaleNoteGain_end :
    scaleNoteGain scaleNoteDuration scaleNoteDuration = 0 := by
  rw [scaleNoteGain_ramp_down scaleNoteDuration (by norm_num
    [scaleNoteDuration]) le_rfl]
  exact lerp_right _ _ _ _ (by norm_num [scaleNoteDuration])

theorem scaleNoteRamps_wf :
    rampsWF 0 0.5 (0, 0) (scaleNoteRamps scaleNoteDuration) := by
  simp only [scaleNoteRamps, scaleNoteDuration, rampsWF]
  norm_num

theorem scaleNoteGain_mem (t : ℚ) :
    0 ≤ scaleNoteGain scaleNoteDuration t ∧
      scaleNoteGain scaleNoteDuration t ≤ 0.5 :=
  rampEval_mem 0 0.5 (scaleNoteRamps scaleNoteDuration) 0 0
    scaleNoteRamps_wf t

theorem scaleNoteGain_peak : scaleNoteGain scaleNoteDuration 0.01 = 0.5 :=
  scaleNoteGain_plateau 0.01 le_rfl (by norm_num [scaleNoteDuration])

/-- C4: every note of the scale uses the fixed quick envelope, independent
of the sidebar ADSR settings: the gain ramps linearly from 0 to 0.5 over the
first 0.01 s, holds 0.5 until 0.05 s before the note's end, ramps linearly
to 0 at the end; each note's total sounding duration (its `oscillator.stop`
time) is exactly 0.3 s, and the envelope's peak gain is 0.5. -/
theorem playScale_quick_envelope (cfg : SessionConfig) :
    (∀ n ∈ playCMajorScale cfg,
      n.gainRamps = scaleNoteRamps scaleNoteDuration ∧
      n.stopTime = scaleNoteDuration) ∧
    scaleNoteDuration = 0.3 ∧
    scaleNoteGain scaleNoteDuration 0 = 0 ∧
    (∀ t, 0 ≤ t → t ≤ 0.01 →
      scaleNoteGain scaleNoteDuration t = lerp 0 0 0.01 0.5 t) ∧
    (∀ t, 0.01 ≤ t → t ≤ scaleNoteDuration - 0.05 →
      scaleNoteGain scaleNoteDuration t = 0.5) ∧
    (∀ t, scaleNoteDuration - 0.05 ≤ t → t ≤ scaleNoteDuration →
      scaleNoteGain scaleNoteDuration t =
        lerp (scaleNoteDuration - 0.05) 0.5 scaleNoteDuration 0 t) ∧
    scaleNoteGain scaleNoteDuration scaleNoteDuration = 0 ∧
    (∀ t, scaleNoteGain scaleNoteDuration t ≤ 0.5) ∧
    scaleNoteGain scaleNoteDuration 0.01 = 0.5 := by
  refine ⟨?_, by norm_num [scaleNoteDuration], scaleNoteGain_zero,
    scaleNoteGain_ramp_up, scaleNoteGain_plateau, scaleNoteGain_ramp_down,
    scaleNoteGain_end, fun t => (scaleNoteGain_mem t).2, scaleNoteGain_peak⟩
  intro n hn
  simp only [playCMajorScale, List.mem_map] at hn
  obtain ⟨p, hp, rfl⟩ := hn
  exact ⟨rfl, rfl⟩

/-- Witness for C4 at the sidebar defaults: the head note of the scale, and
the plateau value at t = 0.1. -/
theorem playScale_quick_envelope_witness :
    ((playCMajorScale sidebarDefaults).headI.stopTime = scaleNoteDuration) ∧
    scaleNoteGain scaleNoteDuration 0.1 = 0.5 := by
  have h := playScale_quick_envelope sidebarDefaults
  refine ⟨?_, h.2.2.2.2.1 0.1 (by norm_num) (by norm_num [scaleNoteDuration])⟩
  exact (h.1 (playCMajorScale sidebarDefaults).headI (by
    simp [playCMajorScale, cMajorScale, List.enum, List.enumFrom])).2

/-- C5: the scale schedule depends only on the configured waveform — two
session configurations agreeing on the waveform but differing arbitrarily in
frequency, attack, decay, sustain and release produce identical scale
output: same notes, same frequencies, same gain breakpoints. -/
theorem playScale_waveform_only (c1 c2 : SessionConfig)
    (h : c1.waveform = c2.waveform) :
    playCMajorScale c1 = playCMajorScale c2 := by
  simp [playCMajorScale, playNoteInScale, h]

/-- Witness for C5: the sidebar defaults and a configuration differing in
every envelope field and the frequency give the same scale schedule. -/
theorem playScale_waveform_only_witness :
    playCMajorScale sidebarDefaults = playCMajorScale altConfig :=
  playScale_waveform_only sidebarDefaults altConfig rfl

/-- C10: `updateStatus` changes the status text only when the display is
active and never changes visibility; on an inactive display it is a
complete no-op; `showStatus` always sets the text and activates the
display. -/
theorem updateStatus_frame (m : String) (s : StatusEl) :
    (s.active = false → updateStatus m s = s) ∧
    (s.active = true → updateStatus m s = { text := m, active := true }) ∧
    showStatus m s = { text := m, active := true } := by
  refine ⟨fun h => ?_, fun h => ?_, rfl⟩
  · simp [updateStatus, h]
  · simp [updateStatus, h]

/-- Witness for C10 on concrete inactive and active status elements. -/
theorem updateStatus_frame_witness :
    updateStatus "next" { text := "old", active := false } =
      { text := "old", active := false } ∧
    updateStatus "next" { text := "old", active := true } =
      { text := "next", active := true } :=
  ⟨(updateStatus_frame "next" { text := "old", active := false }).1 rfl,
   (updateStatus_frame "next" { text := "old", active := true }).2.1 rfl⟩

/-! ## The sidebar boundary -/

theorem sliderValue_bounds {lo hi req v : ℚ}
    (h : sliderValue lo hi req = some v) : lo ≤ v ∧ v ≤ hi := by
  simp only [sliderValue] at h
  split_ifs at h with hc
  injection h with h'
  subst h'
  exact hc

theorem selectValue_mem {opts : List String} {req v : String}
    (h : selectValue opts req = some v) : v ∈ opts := by
  simp only [selectValue] at h
  split_ifs at h with hc
  injection h with h'
  subst h'
  exact hc

/-- C7: every parameter that reaches the synthesis script has passed the
sidebar boundary: frequency ∈ [200, 800], attack and decay ∈ [0.01, 2],
sustain ∈ [0, 1], release ∈ [0.01, 3], and the waveform is one of sine,
square, sawtooth, triangle; an invalid parameter such as `attack = 0` is
rejected at the boundary, so no configuration is produced and no note
(hence no sound) is scheduled. -/
theorem boundary_enforces_domains (rf : ℚ) (rwf : String)
    (ra rd rs rr : ℚ) :
    (∀ cfg, configureSession rf rwf ra rd rs rr = some cfg →
      200 ≤ cfg.frequency ∧ cfg.frequency ≤ 800 ∧
      0.01 ≤ cfg.attack ∧ cfg.attack ≤ 2 ∧
      0.01 ≤ cfg.decay ∧ cfg.decay ≤ 2 ∧
      0 ≤ cfg.sustain ∧ cfg.sustain ≤ 1 ∧
      0.01 ≤ cfg.release ∧ cfg.release ≤ 3 ∧
      cfg.waveform ∈ waveformOptions) ∧
    configureSession rf rwf 0 rd rs rr = none ∧
    playToneRequest rf rwf 0 rd rs rr = [] := by
  have hnone : configureSession rf rwf 0 rd rs rr = none := by
    have h0 : sliderValue 0.01 2.0 0 = none := by
      simp only [sliderValue]
      rw [if_neg]
      norm_num
    cases hf : sliderValue 200 800 rf with
    | none => simp [configureSession, hf]
    | some f =>
      cases hw : selectValue waveformOptions rwf with
      | none => simp [configureSession, hf, hw]
      | some w => simp [configureSession, hf, hw, h0]
  refine ⟨?_, hnone, by simp [playToneRequest, hnone]⟩
  intro cfg h
  simp only [configureSession, bind, Option.bind_eq_some, Option.pure_def,
    Option.some.injEq] at h
  obtain ⟨f, hf, wf, hwf, a, ha, d, hd, s, hs, r, hr, rfl⟩ := h
  have Hf := sliderValue_bounds hf
  have Ha := sliderValue_bounds ha
  have Hd := sliderValue_bounds hd
  have Hs := sliderValue_bounds hs
  have Hr := sliderValue_bounds hr
  exact ⟨Hf.1, Hf.2, Ha.1, by linarith [Ha.2], Hd.1, by linarith [Hd.2],
    Hs.1, Hs.2, Hr.1, by linarith [Hr.2], selectValue_mem hwf⟩

/-- Witness for C7: the sidebar defaults pass the boundary and land in the
required domains, while the same request with `attack = 0` schedules
nothing. -/
theorem boundary_enforces_domains_witness :
    (0.01 ≤ sidebarDefaults.attack ∧
      sidebarDefaults.waveform ∈ waveformOptions) ∧
    configureSession 440 "sine" 0 0.2 0.5 0.3 = none ∧
    playToneRequest 440 "sine" 0 0.2 0.5 0.3 = [] := by
  have h := boundary_enforces_domains 440 "sine" 0.1 0.2 0.5 0.3
  have hc : configureSession 440 "sine" 0.1 0.2 0.5 0.3 =
      some sidebarDefaults := by
    simp [configureSession, sliderValue, selectValue, waveformOptions,
      sidebarDefaults]
    norm_num
  have H := h.1 sidebarDefaults hc
  exact ⟨⟨H.2.2.1, H.2.2.2.2.2.2.2.2.2.2⟩, h.2.1, h.2.2⟩

/-! ## The EnvelopeShaper (spec-modelled) -/

/-- The envelope parameter record of the specification data model (§3):
`{attackSeconds ≥ 0.01, decaySeconds ≥ 0.01, sustainLevel ∈ [0,1],
releaseSeconds ≥ 0.01}`. -/
structure EnvelopeParams where
  attackSeconds : ℚ
  decaySeconds : ℚ
  sustainLevel : ℚ
  releaseSeconds : ℚ
  deriving DecidableEq, Repr

/-- The `EnvelopeParams` invariant of the specification data model. -/
def ValidEnvelope (p : EnvelopeParams) : Prop :=
  0.01 ≤ p.attackSeconds ∧ 0.01 ≤ p.decaySeconds ∧
    0 ≤ p.sustainLevel ∧ p.sustainLevel ≤ 1 ∧ 0.01 ≤ p.releaseSeconds

/-- Modelled from the spec: the EnvelopeShaper contract
`gainAt(envelope, elapsedSeconds, holdSeconds)` of §4.2 belongs to the
engine the spec reconstructs and is absent from the repository source (the
source installs the equivalent breakpoints directly on a Web Audio gain
node).  By elapsed time `t`: Attack ramps linearly 0→1 on `[0, A)`, Decay
ramps linearly 1→sustainLevel on `[A, A+D)`, Sustain holds sustainLevel on
`[A+D, A+D+hold)`, Release ramps linearly sustainLevel→0 on
`[A+D+hold, A+D+hold+R)`, and the gain is 0 afterwards. -/
def gainAt (p : EnvelopeParams) (hold t : ℚ) : ℚ :=
  if t < 0 then 0
  else if t < p.attackSeconds then t / p.attackSeconds
  else if t < p.attackSeconds + p.decaySeconds then
    1 + (p.sustainLevel - 1) * ((t - p.attackSeconds) / p.decaySeconds)
  else if t < p.attackSeconds + p.decaySeconds + hold then p.sustainLevel
  else if t < p.attackSeconds + p.decaySeconds + hold + p.releaseSeconds then
    p.sustainLevel *
      (1 - (t - (p.attackSeconds + p.decaySeconds + hold)) / p.releaseSeconds)
  else 0

theorem gainAt_attack_formula (p : EnvelopeParams) (hold t : ℚ)
    (hA : 0 < p.attackSeconds) (hD : 0 < p.decaySeconds)
    (h1 : 0 ≤ t) (h2 : t ≤ p.attackSeconds) :
    gainAt p hold t = t / p.attackSeconds := by
  rw [gainAt, if_neg (by linarith : ¬ t < 0)]
  by_cases hb : t < p.attackSeconds
  · rw [if_pos hb]
  · have ht : t = p.attackSeconds := le_antisymm h2 (not_lt.mp hb)
    rw [if_neg hb, if_pos (by linarith : t < p.attackSeconds + p.decaySeconds),
      ht, div_self hA.ne.symm]
    simp

theorem gainAt_decay_formula (p : EnvelopeParams) (hold t : ℚ)
    (hA : 0 < p.attackSeconds) (hD : 0 < p.decaySeconds)
    (hR : 0 < p.releaseSeconds) (hh : 0 ≤ hold)
    (h1 : p.attackSeconds ≤ t) (h2 : t ≤ p.attackSeconds + p.decaySeconds) :
    gainAt p hold t =
      1 + (p.sustainLevel - 1) * ((t - p.attackSeconds) / p.decaySeconds) := by
  rw [gainAt, if_neg (by linarith : ¬ t < 0),
    if_neg (by linarith : ¬ t < p.attackSeconds)]
  by_cases hb : t < p.attackSeconds + p.decaySeconds
  · rw [if_pos hb]
  · have ht : t = p.attackSeconds + p.decaySeconds :=
      le_antisymm h2 (not_lt.mp hb)
    have hform : (t - p.attackSeconds) / p.decaySeconds = 1 := by
      rw [ht]
      field_simp
    rw [if_neg hb, hform]
    by_cases hc : t < p.attackSeconds + p.decaySeconds + hold
    · rw [if_pos hc]; ring
    · rw [if_neg hc,
        if_pos (by linarith :
          t < p.attackSeconds + p.decaySeconds + hold + p.releaseSeconds)]
      have hth : t = p.attackSeconds + p.decaySeconds + hold := by
        have := not_lt.mp hc
        linarith
      rw [hth]
      field_simp

theorem gainAt_sustain_formula (p : EnvelopeParams) (hold t : ℚ)
    (hA : 0 < p.attackSeconds) (hD : 0 < p.decaySeconds)
    (hR : 0 < p.releaseSeconds) (hh : 0 ≤ hold)
    (h1 : p.attackSeconds + p.decaySeconds ≤ t)
    (h2 : t ≤ p.attackSeconds + p.decaySeconds + hold) :
    gainAt p hold t = p.sustainLevel := by
  rw [gainAt, if_neg (by linarith : ¬ t < 0),
    if_neg (by linarith : ¬ t < p.attackSeconds),
    if_neg (by linarith : ¬ t < p.attackSeconds + p.decaySeconds)]
  by_cases hb : t < p.attackSeconds + p.decaySeconds + hold
  · rw [if_pos hb]
  · have ht : t = p.attackSeconds + p.decaySeconds + hold :=
      le_antisymm h2 (not_lt.mp hb)
    rw [if_neg hb,
      if_pos (by linarith :
        t < p.attackSeconds + p.decaySeconds + hold + p.releaseSeconds),
      ht]
    simp

theorem gainAt_release_formula (p : EnvelopeParams) (hold t : ℚ)
    (hA : 0 < p.attackSeconds) (hD : 0 < p.decaySeconds)
    (hR : 0 < p.releaseSeconds) (hh : 0 ≤ hold)
    (h1 : p.attackSeconds + p.decaySeconds + hold ≤ t)
    (h2 : t ≤ p.attackSeconds + p.decaySeconds + hold + p.releaseSeconds) :
    gainAt p hold t = p.sustainLevel *
      (1 - (t - (p.attackSeconds + p.decaySeconds + hold)) /
        p.releaseSeconds) := by
  rw [gainAt, if_neg (by linarith : ¬ t < 0),
    if_neg (by linarith : ¬ t < p.attackSeconds),
    if_neg (by linarith : ¬ t < p.attackSeconds + p.decaySeconds),
    if_neg (by linarith : ¬ t < p.attackSeconds + p.decaySeconds + hold)]
  by_cases hb : t < p.attackSeconds + p.decaySeconds + hold + p.releaseSeconds
  · rw [if_pos hb]
  · have ht : t = p.attackSeconds + p.decaySeconds + hold + p.releaseSeconds :=
      le_antisymm h2 (not_lt.mp hb)
    rw [if_neg hb, ht]
    field_simp

/-- C6: the spec-modelled envelope gain is exactly 0 at `t = 0` and at or
after the full envelope duration `A + D + hold + R`; within each stage it
agrees with a linear ramp (hence is continuous there); and it is monotone
non-decreasing throughout Attack and monotone non-increasing throughout
Decay and throughout Release. -/
theorem gainAt_shape (p : EnvelopeParams) (hold : ℚ)
    (hp : ValidEnvelope p) (hh : 0 ≤ hold) :
    gainAt p hold 0 = 0 ∧
    (∀ t, p.attackSeconds + p.decaySeconds + hold + p.releaseSeconds ≤ t →
      gainAt p hold t = 0) ∧
    (∀ t, 0 ≤ t → t ≤ p.attackSeconds →
      gainAt p hold t = t / p.attackSeconds) ∧
    (∀ t, p.attackSeconds ≤ t → t ≤ p.attackSeconds + p.decaySeconds →
      gainAt p hold t = 1 + (p.sustainLevel - 1) *
        ((t - p.attackSeconds) / p.decaySeconds)) ∧
    (∀ t, p.attackSeconds + p.decaySeconds ≤ t →
      t ≤ p.attackSeconds + p.decaySeconds + hold →
      gainAt p hold t = p.sustainLevel) ∧
    (∀ t, p.attackSeconds + p.decaySeconds + hold ≤ t →
      t ≤ p.attackSeconds + p.decaySeconds + hold + p.releaseSeconds →
      gainAt p hold t = p.sustainLevel *
        (1 - (t - (p.attackSeconds + p.decaySeconds + hold)) /
          p.releaseSeconds)) ∧
    (∀ t1 t2, 0 ≤ t1 → t1 ≤ t2 → t2 ≤ p.attackSeconds →
      gainAt p hold t1 ≤ gainAt p hold t2) ∧
    (∀ t1 t2, p.attackSeconds ≤ t1 → t1 ≤ t2 →
      t2 ≤ p.attackSeconds + p.decaySeconds →
      gainAt p hold t2 ≤ gainAt p hold t1) ∧
    (∀ t1 t2, p.attackSeconds + p.decaySeconds + hold ≤ t1 → t1 ≤ t2 →
      t2 ≤ p.attackSeconds + p.decaySeconds + hold + p.releaseSeconds →
      gainAt p hold t2 ≤ gainAt p hold t1) := by
  obtain ⟨hA01, hD01, hs0, hs1, hR01⟩ := hp
  have hA : (0 : ℚ) < p.attackSeconds := by linarith
  have hD : (0 : ℚ) < p.decaySeconds := by linarith
  have hR : (0 : ℚ) < p.releaseSeconds := by linarith
  have hAD : (0 : ℚ) ≤ p.attackSeconds + p.decaySeconds := by linarith
  refine ⟨?_, ?_, fun t h1 h2 => gainAt_attack_formula p hold t hA hD h1 h2,
    fun t h1 h2 => gainAt_decay_formula p hold t hA hD hR hh h1 h2,
    fun t h1 h2 => gainAt_sustain_formula p hold t hA hD hR hh h1 h2,
    fun t h1 h2 => gainAt_release_formula p hold t hA hD hR hh h1 h2,
    ?_, ?_, ?_⟩
  · rw [gainAt_attack_formula p hold 0 hA hD le_rfl hA.le, zero_div]
  · intro t ht
    rw [gainAt, if_neg (by linarith : ¬ t < 0),
      if_neg (by linarith : ¬ t < p.attackSeconds),
      if_neg (by linarith : ¬ t < p.attackSeconds + p.decaySeconds),
      if_neg (by linarith : ¬ t < p.attackSeconds + p.decaySeconds + hold),
      if_neg (by linarith :
        ¬ t < p.attackSeconds + p.decaySeconds + hold + p.releaseSeconds)]
  · intro t1 t2 h1 h12 h2
    rw [gainAt_attack_formula p hold t1 hA hD h1 (by linarith),
      gainAt_attack_formula p hold t2 hA hD (by linarith) h2]
    exact (div_le_div_iff_of_pos_right hA).mpr h12
  · intro t1 t2 h1 h12 h2
    rw [gainAt_decay_formula p hold t1 hA hD hR hh h1 (by linarith),
      gainAt_decay_formula p hold t2 hA hD hR hh (by linarith) h2]
    have hdiv : (t1 - p.attackSeconds) / p.decaySeconds ≤
        (t2 - p.attackSeconds) / p.decaySeconds :=
      (div_le_div_iff_of_pos_right hD).mpr (by linarith)
    have := mul_le_mul_of_nonpos_left hdiv
      (by linarith : p.sustainLevel - 1 ≤ 0)
    linarith
  · intro t1 t2 h1 h12 h2
    rw [gainAt_release_formula p hold t1 hA hD hR hh h1 (by linarith),
      gainAt_release_formula p hold t2 hA hD hR hh (by linarith) h2]
    have hdiv : (t1 - (p.attackSeconds + p.decaySeconds + hold)) /
        p.releaseSeconds ≤
        (t2 - (p.attackSeconds + p.decaySeconds + hold)) /
        p.releaseSeconds :=
      (div_le_div_iff_of_pos_right hR).mpr (by linarith)
    have := mul_le_mul_of_nonneg_left (by linarith :
      1 - (t2 - (p.attackSeconds + p.decaySeconds + hold)) /
        p.releaseSeconds ≤
      1 - (t1 - (p.attackSeconds + p.decaySeconds + hold)) /
        p.releaseSeconds) hs0
    linarith

/-- Witness for C6 at the spec's single-tone defaults
(attack 0.1, decay 0.2, sustain 0.5, release 0.3, hold 0.5). -/
theorem gainAt_shape_witness :
    gainAt { attackSeconds := 0.1, decaySeconds := 0.2, sustainLevel := 0.5,
             releaseSeconds := 0.3 } 0.5 0 = 0 ∧
    gainAt { attackSeconds := 0.1, decaySeconds := 0.2, sustainLevel := 0.5,
             releaseSeconds := 0.3 } 0.5 1.1 = 0 ∧
    gainAt { attackSeconds := 0.1, decaySeconds := 0.2, sustainLevel := 0.5,
             releaseSeconds := 0.3 } 0.5 0.4 = 0.5 := by
  have h := gainAt_shape
    { attackSeconds := 0.1, decaySeconds := 0.2, sustainLevel := 0.5,
      releaseSeconds := 0.3 } 0.5
    (by refine ⟨?_, ?_, ?_, ?_, ?_⟩ <;> norm_num) (by norm_num)
  refine ⟨h.1, ?_, ?_⟩
  · exact h.2.1 1.1 (by norm_num)
  · exact h.2.2.2.2.1 0.4 (by norm_num) (by norm_num)

/-! ## Cancellation (spec-modelled) -/

/-- The NoteEvent record of the specification data model (§3). -/
structure NoteEvent where
  frequencyHz : ℚ
  startOffsetSeconds : ℚ
  holdSeconds : ℚ
  envelope : EnvelopeParams
  waveform : String
  deriving DecidableEq, Repr

/-- Modelled from the spec: the Voice runtime state of §3/§4.3, extended
with §4.4's forced-release flag — `releasedAt` records the elapsed time at
which an external cancel forced the voice into Release (`none` while the
voice is driven purely by its envelope).  The cancellation machinery is
part of the engine the spec reconstructs and is absent from the repository
source (the page offers no cancel control). -/
structure Voice where
  envelope : EnvelopeParams
  holdSeconds : ℚ
  elapsedSeconds : ℚ
  releasedAt : Option ℚ
  deriving DecidableEq, Repr

/-- Modelled from the spec: the envelope gain of a voice at elapsed time
`t`.  An unreleased voice follows `gainAt`; a voice forced into Release at
`tc` follows `gainAt` up to `tc`, then ramps linearly from its gain at `tc`
to 0 over its configured `releaseSeconds`, and is 0 afterwards. -/
def voiceGain (v : Voice) (t : ℚ) : ℚ :=
  match v.releasedAt with
  | none => gainAt v.envelope v.holdSeconds t
  | some tc =>
      if t ≤ tc then gainAt v.envelope v.holdSeconds t
      else if t < tc + v.envelope.releaseSeconds then
        gainAt v.envelope v.holdSeconds tc *
          (1 - (t - tc) / v.envelope.releaseSeconds)
      else 0

/-- Modelled from the spec: the elapsed time at which a voice reaches Done —
the end of its (possibly forced) release ramp. -/
def voiceDoneTime (v : Voice) : ℚ :=
  match v.releasedAt with
  | none => v.envelope.attackSeconds + v.envelope.decaySeconds +
      v.holdSeconds + v.envelope.releaseSeconds
  | some tc => tc + v.envelope.releaseSeconds

/-- Modelled from the spec: §4.4's cancellation of one active voice — it is
forced directly into Release at its current elapsed time (a voice already
released is left as it is). -/
def forceRelease (v : Voice) : Voice :=
  match v.releasedAt with
  | some _ => v
  | none => { v with releasedAt := some v.elapsedSeconds }

/-- Modelled from the spec: the per-session scheduler state of §4.4 —
scheduled-but-not-yet-activated events, the active voice set, and the
render clock. -/
structure SchedulerState where
  pending : List NoteEvent
  active : List Voice
  clock : ℚ
  deriving Repr

/-- Modelled from the spec: §4.4's cancellation — clear the
scheduled-but-not-yet-activated events and force every active voice into
Release; the clock is untouched. -/
def cancelScheduler (st : SchedulerState) : SchedulerState :=
  { pending := []
    active := st.active.map forceRelease
    clock := st.clock }

theorem forceRelease_isSome (v : Voice) :
    (forceRelease v).releasedAt.isSome := by
  cases hv : v.releasedAt <;> simp [forceRelease, hv]

/-- C8: cancelling an active session clears every
scheduled-but-not-yet-activated event and forces each active voice into
Release at its current elapsed time; a voice cancelled mid-Sustain keeps its
configured release time before Done (its gain reaches 0 exactly at
`elapsed + releaseSeconds` and stays 0), its gain at the cancel instant is
still the sustain level, and the transition introduces no discontinuity:
two samples `dt` apart around or after the cancel differ by at most
`dt / releaseSeconds`. -/
theorem cancel_releases_voices (st : SchedulerState) (v : Voice)
    (hv : v ∈ st.active) (hnone : v.releasedAt = none)
    (hp : ValidEnvelope v.envelope) (hh : 0 ≤ v.holdSeconds)
    (hmid1 : v.envelope.attackSeconds + v.envelope.decaySeconds ≤
      v.elapsedSeconds)
    (hmid2 : v.elapsedSeconds ≤ v.envelope.attackSeconds +
      v.envelope.decaySeconds + v.holdSeconds) :
    (cancelScheduler st).pending = [] ∧
    (∀ w ∈ (cancelScheduler st).active, w.releasedAt.isSome) ∧
    forceRelease v ∈ (cancelScheduler st).active ∧
    (forceRelease v).releasedAt = some v.elapsedSeconds ∧
    voiceDoneTime (forceRelease v) =
      v.elapsedSeconds + v.envelope.releaseSeconds ∧
    voiceGain (forceRelease v) v.elapsedSeconds =
      v.envelope.sustainLevel ∧
    (∀ t, v.elapsedSeconds + v.envelope.releaseSeconds ≤ t →
      voiceGain (forceRelease v) t = 0) ∧
    (∀ t, v.elapsedSeconds ≤ t →
      t ≤ v.elapsedSeconds + v.envelope.releaseSeconds →
      |voiceGain (forceRelease v) t -
          voiceGain (forceRelease v) v.elapsedSeconds| ≤
        (t - v.elapsedSeconds) / v.envelope.releaseSeconds) := by
  obtain ⟨hA01, hD01, hs0, hs1, hR01⟩ := hp
  have hA : (0 : ℚ) < v.envelope.attackSeconds := by linarith
  have hD : (0 : ℚ) < v.envelope.decaySeconds := by linarith
  have hR : (0 : ℚ) < v.envelope.releaseSeconds := by linarith
  have hfr : forceRelease v = { v with releasedAt := some v.elapsedSeconds } := by
    simp [forceRelease, hnone]
  have hgtc : gainAt v.envelope v.holdSeconds v.elapsedSeconds =
      v.envelope.sustainLevel :=
    gainAt_sustain_formula v.envelope v.holdSeconds v.elapsedSeconds
      hA hD hR hh hmid1 hmid2
  have hattc : voiceGain (forceRelease v) v.elapsedSeconds =
      v.envelope.sustainLevel := by
    rw [hfr]
    simp only [voiceGain]
    simpa using hgtc
  refine ⟨rfl, ?_, List.mem_map_of_mem forceRelease hv, by rw [hfr], by
    rw [hfr]; simp [voiceDoneTime], hattc, ?_, ?_⟩
  · intro w hw
    simp only [cancelScheduler, List.mem_map] at hw
    obtain ⟨u, hu, rfl⟩ := hw
    exact forceRelease_isSome u
  · intro t ht
    rw [hfr]
    simp only [voiceGain]
    rw [if_neg (by linarith : ¬ t ≤ v.elapsedSeconds),
      if_neg (by linarith :
        ¬ t < v.elapsedSeconds + v.envelope.releaseSeconds)]
  · intro t h1 h2
    rw [hattc, hfr]
    simp only [voiceGain]
    by_cases hle : t ≤ v.elapsedSeconds
    · have ht : t = v.elapsedSeconds := le_antisymm hle h1
      rw [if_pos hle, ht, hgtc]
      simp [div_nonneg, hR.le]
    · rw [if_neg hle]
      have hq0 : 0 ≤ (t - v.elapsedSeconds) / v.envelope.releaseSeconds :=
        div_nonneg (by linarith) hR.le
      by_cases hlt : t < v.elapsedSeconds + v.envelope.releaseSeconds
      · rw [if_pos hlt, hgtc]
        have heq : v.envelope.sustainLevel *
            (1 - (t - v.elapsedSeconds) / v.envelope.releaseSeconds) -
            v.envelope.sustainLevel =
            -(v.envelope.sustainLevel *
              ((t - v.elapsedSeconds) / v.envelope.releaseSeconds)) := by
          ring
        rw [heq, abs_neg, abs_of_nonneg (mul_nonneg hs0 hq0)]
        nlinarith [mul_le_mul_of_nonneg_right hs1 hq0]
      · rw [if_neg hlt]
        have ht : t = v.elapsedSeconds + v.envelope.releaseSeconds :=
          le_antisymm h2 (not_lt.mp hlt)
        rw [ht, zero_sub, abs_neg, abs_of_nonneg hs0]
        have : (v.elapsedSeconds + v.envelope.releaseSeconds -
            v.elapsedSeconds) / v.envelope.releaseSeconds = 1 := by
          field_simp
        rw [this]
        exact hs1

/-- A concrete mid-sustain cancellation scene: the spec's single-tone
defaults, cancelled at elapsed time 0.4 s (inside the sustain plateau
`[0.3, 0.8]`). -/
def demoEnvelope : EnvelopeParams :=
  { attackSeconds := 0.1
    decaySeconds := 0.2
    sustainLevel := 0.5
    releaseSeconds := 0.3 }

/-- A voice in mid-Sustain for the cancellation witness. -/
def demoVoice : Voice :=
  { envelope := demoEnvelope
    holdSeconds := 0.5
    elapsedSeconds := 0.4
    releasedAt := none }

/-- A scheduled-but-not-yet-activated event for the cancellation witness. -/
def demoEvent : NoteEvent :=
  { frequencyHz := 523.25
    startOffsetSeconds := 2.1
    holdSeconds := 0.24
    envelope := demoEnvelope
    waveform := "sine" }

/-- A scheduler state with one pending event and one active voice. -/
def demoState : SchedulerState :=
  { pending := [demoEvent]
    active := [demoVoice]
    clock := 0.4 }

/-- Witness for C8 on the concrete mid-sustain cancellation scene. -/
theorem cancel_releases_voices_witness :
    (cancelScheduler demoState).pending = [] ∧
    voiceGain (forceRelease demoVoice) 0.4 = 0.5 ∧
    |voiceGain (forceRelease demoVoice) 0.55 -
        voiceGain (forceRelease demoVoice) 0.4| ≤ (0.55 - 0.4) / 0.3 := by
  have h := cancel_releases_voices demoState demoVoice
    (by simp [demoState]) rfl
    (by refine ⟨?_, ?_, ?_, ?_, ?_⟩ <;> norm_num [demoEnvelope, demoVoice])
    (by norm_num [demoVoice])
    (by norm_num [demoEnvelope, demoVoice])
    (by norm_num [demoEnvelope, demoVoice])
  refine ⟨h.1, ?_, ?_⟩
  · simpa [demoVoice, demoEnvelope] using h.2.2.2.2.2.1
  · have := h.2.2.2.2.2.2.2 0.55 (by norm_num [demoVoice])
      (by norm_num [demoVoice, demoEnvelope])
    simpa [demoVoice, demoEnvelope] using this

end Mulberry
